import Mathlib

/-!
Verification of the parallel-composition combinator of
`src/XrdCl/XrdClParallelOperation.hh` (XRootD client library).

The header is embedded shallowly:
* `XRootDStatus` keeps the success/error tag and the message (the only parts
  the combinator inspects or constructs);
* the four `PolicyExecutor` subclasses become four structures with an
  `Examine` step function returning the decision together with the updated
  policy state; the virtual dispatch becomes the sum type `PolicyExecutor`;
* the `std::atomic<size_t>` counters become `Nat` with explicit `% 2^64`
  wrap-around on `fetch_sub(1)` / `fetch_add(1)`;
* the gate `Ctx` becomes a structure whose atomic `PipelineHandler*` slot is
  an `Option PipelineHandler`; every handler invocation
  (`hdlr->HandleResponse(new XRootDStatus(st), nullptr)`) is recorded as the
  delivered status in an output list;
* a run of the gate is a sequence of `Examine` calls (the serialization of
  the task completions: each `fetch_sub`/`exchange` is a single indivisible
  step, and the claims quantify over completion sequences) followed by the
  destructor triggered by the release of the last shared reference;
* `RunImpl` becomes a function on a list of pipelines, each carrying its
  synchronous launch behaviour (`ok`, throw `PipelineException`, or throw
  `std::exception`); the `shared_ptr` reference count is modelled by the
  observation that after `RunImpl` returns only the launched closures hold
  references, so if no task was launched the `Ctx` destructor runs during
  `RunImpl` itself.
-/

/-- `2^64`: one past the largest `size_t` value; the atomic counters of the
policies are `size_t` and wrap modulo this. -/
def wsize : Nat := 2 ^ 64

/-- Status tag `stOK` of `XRootDStatus`. -/
def stOK : Nat := 0

/-- Status tag `stError` of `XRootDStatus`. -/
def stError : Nat := 1

/-- The parts of `XrdCl::XRootDStatus` the combinator uses: the status tag
(compared by `IsOK`) and the message (set from `ex.what()` on a
`std::exception` during the launch loop). -/
structure XRootDStatus where
  status : Nat
  msg : String
deriving DecidableEq, Repr

/-- `XRootDStatus::IsOK()`: the status tag equals `stOK`. -/
def XRootDStatus.IsOK (s : XRootDStatus) : Bool := s.status == stOK

/-- The default-constructed `XRootDStatus()`: a success status. -/
def XRootDStatus.default : XRootDStatus := ⟨stOK, ""⟩

/-- Opaque stand-in for `XrdCl::PipelineHandler*`; only its identity
matters to the combinator. -/
structure PipelineHandler where
  id : Nat
deriving DecidableEq, Repr

/-- `AllPolicy`: stateless. -/
structure AllPolicy : Type
deriving DecidableEq, Repr

/-- `AllPolicy::Examine`: `if (status.IsOK()) return false; return true;` -/
def AllPolicy.Examine (_p : AllPolicy) (status : XRootDStatus) : Bool × AllPolicy :=
  if status.IsOK then (false, ⟨⟩)
  else (true, ⟨⟩)

/-- `AnyPolicy`: an atomic remaining-count counter, initialised to the
number of pipelines. -/
structure AnyPolicy where
  cnt : Nat
deriving DecidableEq, Repr

/-- `AnyPolicy::Examine`: `nb = cnt.fetch_sub(1)` (pre-decrement value,
counter wraps modulo `2^64`), then success → `true`, failure → `nb == 1`. -/
def AnyPolicy.Examine (p : AnyPolicy) (status : XRootDStatus) : Bool × AnyPolicy :=
  let nb := p.cnt
  let p' : AnyPolicy := ⟨(p.cnt + (wsize - 1)) % wsize⟩
  if status.IsOK then (true, p')
  else if nb == 1 then (true, p')
  else (false, p')

/-- `SomePolicy`: remaining-count counter, success counter, and the
caller-supplied threshold. -/
structure SomePolicy where
  cnt : Nat
  succeeded : Nat
  threshold : Nat
deriving DecidableEq, Repr

/-- `SomePolicy::Examine`: `nb = cnt.fetch_sub(1)`; on success
`s = succeeded.fetch_add(1)` and the decision is `s + 1 == threshold`
(a `size_t` comparison, hence the `% wsize`); on failure the decision is
`nb == threshold`. -/
def SomePolicy.Examine (p : SomePolicy) (status : XRootDStatus) : Bool × SomePolicy :=
  let nb := p.cnt
  let cnt' := (p.cnt + (wsize - 1)) % wsize
  if status.IsOK then
    let s := p.succeeded
    let succeeded' := (p.succeeded + 1) % wsize
    if (s + 1) % wsize == p.threshold then (true, ⟨cnt', succeeded', p.threshold⟩)
    else (false, ⟨cnt', succeeded', p.threshold⟩)
  else if nb == p.threshold then (true, ⟨cnt', p.succeeded, p.threshold⟩)
  else (false, ⟨cnt', p.succeeded, p.threshold⟩)

/-- `AtLeastPolicy`: remaining-count counter and the caller-supplied
threshold. -/
structure AtLeastPolicy where
  cnt : Nat
  threshold : Nat
deriving DecidableEq, Repr

/-- `AtLeastPolicy::Examine`: `nb = cnt.fetch_sub(1)`; success → `false`
(it always waits for the rest), failure → `nb == threshold`. -/
def AtLeastPolicy.Examine (p : AtLeastPolicy) (status : XRootDStatus) : Bool × AtLeastPolicy :=
  let nb := p.cnt
  let cnt' := (p.cnt + (wsize - 1)) % wsize
  if status.IsOK then (false, ⟨cnt', p.threshold⟩)
  else if nb == p.threshold then (true, ⟨cnt', p.threshold⟩)
  else (false, ⟨cnt', p.threshold⟩)

/-- The closed variant of the virtual `PolicyExecutor` hierarchy. -/
inductive PolicyExecutor where
  | AllP (p : AllPolicy)
  | AnyP (p : AnyPolicy)
  | SomeP (p : SomePolicy)
  | AtLeastP (p : AtLeastPolicy)
deriving DecidableEq, Repr

/-- Virtual dispatch of `PolicyExecutor::Examine`. -/
def PolicyExecutor.Examine : PolicyExecutor → XRootDStatus → Bool × PolicyExecutor
  | AllP p, st => ((p.Examine st).1, AllP (p.Examine st).2)
  | AnyP p, st => ((p.Examine st).1, AnyP (p.Examine st).2)
  | SomeP p, st => ((p.Examine st).1, SomeP (p.Examine st).2)
  | AtLeastP p, st => ((p.Examine st).1, AtLeastP (p.Examine st).2)

/-- Policy state reached after a sequence of `Examine` calls (the gate calls
the policy on every completion, decided or not). -/
def PolicyExecutor.runTrace (p : PolicyExecutor) (sts : List XRootDStatus) : PolicyExecutor :=
  sts.foldl (fun q st => (q.Examine st).2) p

/-- Number of successful statuses in a trace. -/
def countOK (sts : List XRootDStatus) : Nat :=
  sts.countP (fun st => st.IsOK)

/-- The RAII gate `Ctx`: the atomic `PipelineHandler*` slot and the owned
policy. -/
structure Ctx where
  handler : Option PipelineHandler
  policy : PolicyExecutor
deriving DecidableEq, Repr

/-- `Ctx::Handle`: `hdlr = handler.exchange(nullptr); if (hdlr)
hdlr->HandleResponse(new XRootDStatus(st), nullptr);`.  Returns the updated
gate and the list of statuses delivered to the pipeline handler by this
call (empty or a singleton). -/
def Ctx.Handle (c : Ctx) (st : XRootDStatus) : Ctx × List XRootDStatus :=
  match c.handler with
  | some _hdlr => (⟨none, c.policy⟩, [st])
  | none => (c, [])

/-- `Ctx::Examine`: `if (policy->Examine(st)) Handle(st);` — the policy
state is updated unconditionally, the handler fires only on a `true`
decision. -/
def Ctx.Examine (c : Ctx) (st : XRootDStatus) : Ctx × List XRootDStatus :=
  let r := c.policy.Examine st
  if r.1 then Ctx.Handle ⟨c.handler, r.2⟩ st
  else (⟨c.handler, r.2⟩, [])

/-- A sequence of completions racing through the gate, serialized in
completion order: fold of `Ctx::Examine`, collecting every status delivered
to the pipeline handler. -/
def Ctx.ExamineMany : Ctx → List XRootDStatus → Ctx × List XRootDStatus
  | c, [] => (c, [])
  | c, st :: sts =>
    let r1 := c.Examine st
    let r2 := r1.1.ExamineMany sts
    (r2.1, r1.2 ++ r2.2)

/-- `Ctx::~Ctx`: `Handle(XRootDStatus());` — the implicit finalize with the
default success status, run when the last shared reference is released. -/
def Ctx.dtor (c : Ctx) : Ctx × List XRootDStatus :=
  c.Handle XRootDStatus.default

/-- A complete activation from the gate's point of view: every completion's
`Examine` call in completion order, then the destructor when the last
closure releases its shared reference.  Returns all statuses delivered to
the pipeline handler. -/
def Ctx.runAll (c : Ctx) (sts : List XRootDStatus) : List XRootDStatus :=
  let r1 := c.ExamineMany sts
  r1.2 ++ r1.1.dtor.2

/-- Synchronous behaviour of `Pipeline::Run` during the launch loop:
either the launch succeeds (the completion arrives later, asynchronously),
or it throws a `PipelineException` carrying an `XRootDStatus`, or it throws
a plain `std::exception` with a `what()` message. -/
inductive LaunchResult where
  | ok : LaunchResult
  | pipelineEx (err : XRootDStatus) : LaunchResult
  | stdEx (what : String) : LaunchResult
deriving DecidableEq, Repr

/-- The status `RunImpl` returns for a throwing launch: `ex.GetError()` for
a `PipelineException`, `XRootDStatus(stError, ex.what())` for a
`std::exception`; `none` when the launch does not throw. -/
def LaunchResult.throws : LaunchResult → Option XRootDStatus
  | .ok => none
  | .pipelineEx e => some e
  | .stdEx w => some ⟨stError, w⟩

/-- A pipeline as the combinator sees it: its `ToString` rendering and its
synchronous launch behaviour. -/
structure Pipeline where
  str : String
  launch : LaunchResult
deriving DecidableEq, Repr

/-- The combinator: the task list, the optional selected policy, and the
timeout field inherited from the operation base class (its initial value is
irrelevant here). -/
structure ParallelOperation where
  pipelines : List Pipeline
  policy : Option PolicyExecutor
  timeout : Nat
deriving DecidableEq, Repr

/-- `ParallelOperation(Container &&container)`: moves the container's
contents into `pipelines` and clears the container (second component:
what is left of the container). -/
def ParallelOperation.mkFromContainer (container : List Pipeline) :
    ParallelOperation × List Pipeline :=
  (⟨container, none, 0⟩, [])

/-- The `oss << pipelines[i]->ToString(); if (i+1 != size) oss << " && ";`
loop of `ParallelOperation::ToString`. -/
def toStringLoop : List Pipeline → String
  | [] => ""
  | [p] => p.str
  | p :: q :: ps => p.str ++ " && " ++ toStringLoop (q :: ps)

/-- `ParallelOperation::ToString`: `"Parallel(" ... ")"` around the
`" && "`-separated pipeline renderings. -/
def ParallelOperation.ToString (op : ParallelOperation) : String :=
  "Parallel(" ++ toStringLoop op.pipelines ++ ")"

/-- `ParallelOperation::All()`: install a fresh `AllPolicy`. -/
def ParallelOperation.All (op : ParallelOperation) : ParallelOperation :=
  { op with policy := some (.AllP ⟨⟩) }

/-- `ParallelOperation::Any()`: install `AnyPolicy(pipelines.size())`. -/
def ParallelOperation.Any (op : ParallelOperation) : ParallelOperation :=
  { op with policy := some (.AnyP ⟨op.pipelines.length⟩) }

/-- `ParallelOperation::Some(threshold)`: install
`SomePolicy(pipelines.size(), threshold)` — no validation of `threshold`. -/
def ParallelOperation.Some (op : ParallelOperation) (threshold : Nat) : ParallelOperation :=
  { op with policy := some (.SomeP ⟨op.pipelines.length, 0, threshold⟩) }

/-- `ParallelOperation::AtLeast(threshold)`: install
`AtLeastPolicy(pipelines.size(), threshold)` — no validation of
`threshold`. -/
def ParallelOperation.AtLeast (op : ParallelOperation) (threshold : Nat) : ParallelOperation :=
  { op with policy := some (.AtLeastP ⟨op.pipelines.length, threshold⟩) }

/-- The `for (i...) pipelines[i].Run(...)` loop inside the `try` block of
`RunImpl`: launches pipelines left to right; stops at the first throwing
launch, returning the caught status and how many pipelines were launched
before it (`none` when the whole loop completes). -/
def runLoop : List Pipeline → Nat → Option XRootDStatus × Nat
  | [], launched => (none, launched)
  | p :: ps, launched =>
    match p.launch with
    | .ok => runLoop ps (launched + 1)
    | .pipelineEx e => (some e, launched)
    | .stdEx w => (some ⟨stError, w⟩, launched)

/-- The `if (!policy) policy.reset(new AllPolicy())` default at the start
of `RunImpl`: the effective policy of an activation. -/
def ParallelOperation.effPolicy (op : ParallelOperation) : PolicyExecutor :=
  match op.policy with
  | some p => p
  | none => PolicyExecutor.AllP ⟨⟩

/-- Observable result of `RunImpl`: the immediate status it returns, how
many pipelines were launched, the statuses delivered to the pipeline
handler while `RunImpl` itself ran, the gate surviving `RunImpl` (held by
the launched closures; `none` when no closure holds it), and the effective
timeout passed to the launches. -/
structure RunRes where
  status : XRootDStatus
  launched : Nat
  outputs : List XRootDStatus
  ctx : Option Ctx
  timeout : Nat
deriving DecidableEq, Repr

/-- `ParallelOperation::RunImpl`: default the policy to `AllPolicy` when
none was selected, build the shared `Ctx` from the handler and the policy,
compute the effective timeout, and run the launch loop.  A throwing launch
is caught and its status returned as the immediate result; otherwise the
default success status is returned.  In both cases the local `shared_ptr`
is released on return: when no launched closure holds a reference
(`launched = 0`), this release is the last one and the `Ctx` destructor
runs inside `RunImpl`. -/
def ParallelOperation.RunImpl (op : ParallelOperation) (handler : PipelineHandler)
    (pipelineTimeout : Nat) : RunRes :=
  let policy := op.effPolicy
  let ctx : Ctx := ⟨some handler, policy⟩
  let timeout := if pipelineTimeout < op.timeout then pipelineTimeout else op.timeout
  match runLoop op.pipelines 0 with
  | (none, n) =>
    if n = 0 then ⟨XRootDStatus.default, 0, ctx.dtor.2, none, timeout⟩
    else ⟨XRootDStatus.default, n, [], some ctx, timeout⟩
  | (some e, n) =>
    if n = 0 then ⟨e, 0, ctx.dtor.2, none, timeout⟩
    else ⟨e, n, [], some ctx, timeout⟩

/-! ### Basic arithmetic and gate lemmas -/

theorem one_lt_wsize : 1 < wsize := by
  unfold wsize
  norm_num

theorem one_mod_wsize : 1 % wsize = 1 :=
  Nat.mod_eq_of_lt one_lt_wsize

/-- `fetch_sub(1)` on a positive in-range counter is plain decrement. -/
theorem sub_one_mod_wsize {c : Nat} (h1 : 1 ≤ c) (h2 : c < wsize) :
    (c + (wsize - 1)) % wsize = c - 1 := by
  have hw : 1 < wsize := one_lt_wsize
  have h : c + (wsize - 1) = (c - 1) + wsize := by omega
  rw [h, Nat.add_mod_right, Nat.mod_eq_of_lt (by omega)]

/-- `fetch_add(1)` on a counter with room is plain increment. -/
theorem add_one_mod_wsize {s : Nat} (h : s + 1 < wsize) :
    (s + 1) % wsize = s + 1 :=
  Nat.mod_eq_of_lt h

theorem Ctx.runAll_nil (c : Ctx) : c.runAll [] = c.dtor.2 := by
  simp [Ctx.runAll, Ctx.ExamineMany]

theorem Ctx.runAll_cons (c : Ctx) (st : XRootDStatus) (sts : List XRootDStatus) :
    c.runAll (st :: sts) = (c.Examine st).2 ++ (c.Examine st).1.runAll sts := by
  simp [Ctx.runAll, Ctx.ExamineMany, List.append_assoc]

/-- An `Examine` call on a consumed gate delivers nothing and leaves the
slot empty; the policy still advances. -/
theorem Ctx.Examine_none (p : PolicyExecutor) (st : XRootDStatus) :
    Ctx.Examine ⟨none, p⟩ st = (⟨none, (p.Examine st).2⟩, []) := by
  cases hb : (p.Examine st).1 <;> simp [Ctx.Examine, Ctx.Handle, hb]

/-- An `Examine` call on a live gate whose policy decides `true` fires the
handler with the examined status and consumes the slot. -/
theorem Ctx.Examine_some_true (h : PipelineHandler) (p : PolicyExecutor)
    (st : XRootDStatus) (hb : (p.Examine st).1 = true) :
    Ctx.Examine ⟨some h, p⟩ st = (⟨none, (p.Examine st).2⟩, [st]) := by
  simp [Ctx.Examine, Ctx.Handle, hb]

/-- An `Examine` call on a live gate whose policy decides `false` delivers
nothing and keeps the slot. -/
theorem Ctx.Examine_some_false (h : PipelineHandler) (p : PolicyExecutor)
    (st : XRootDStatus) (hb : (p.Examine st).1 = false) :
    Ctx.Examine ⟨some h, p⟩ st = (⟨some h, (p.Examine st).2⟩, []) := by
  simp [Ctx.Examine, hb]

/-- A run on a consumed gate delivers nothing. -/
theorem Ctx.runAll_none (p : PolicyExecutor) (sts : List XRootDStatus) :
    Ctx.runAll ⟨none, p⟩ sts = [] := by
  induction sts generalizing p with
  | nil => rfl
  | cons st sts ih =>
    rw [Ctx.runAll_cons, Ctx.Examine_none]
    simpa using ih (p.Examine st).2

/-- Exactly-once: a run on a live gate delivers exactly one status,
whatever the policy, the completion statuses, and their number. -/
theorem Ctx.runAll_some_length (h : PipelineHandler) (p : PolicyExecutor)
    (sts : List XRootDStatus) : (Ctx.runAll ⟨some h, p⟩ sts).length = 1 := by
  induction sts generalizing p with
  | nil => rfl
  | cons st sts ih =>
    rw [Ctx.runAll_cons]
    cases hb : (p.Examine st).1 with
    | true =>
      rw [Ctx.Examine_some_true h p st hb]
      simp [Ctx.runAll_none]
    | false =>
      rw [Ctx.Examine_some_false h p st hb]
      simpa using ih (p.Examine st).2

/-! ### Policy state evolution along a trace -/

theorem PolicyExecutor.runTrace_nil (p : PolicyExecutor) :
    p.runTrace [] = p := rfl

theorem PolicyExecutor.runTrace_cons (p : PolicyExecutor) (st : XRootDStatus)
    (sts : List XRootDStatus) :
    p.runTrace (st :: sts) = (p.Examine st).2.runTrace sts := rfl

theorem countOK_nil : countOK [] = 0 := rfl

theorem countOK_cons (st : XRootDStatus) (sts : List XRootDStatus) :
    countOK (st :: sts) = countOK sts + (if st.IsOK then 1 else 0) := by
  simp [countOK, List.countP_cons]

/-- The `AnyPolicy` counter is decremented by every `Examine` call,
success or failure. -/
theorem AnyPolicy.Examine_snd_cnt (p : AnyPolicy) (st : XRootDStatus) :
    (p.Examine st).2 = ⟨(p.cnt + (wsize - 1)) % wsize⟩ := by
  simp only [AnyPolicy.Examine]
  split
  · rfl
  · split <;> rfl

/-- The `SomePolicy` counter is decremented by every `Examine` call; the
success counter is incremented exactly on successes; the threshold is
immutable. -/
theorem SomePolicy.Examine_snd_state (p : SomePolicy) (st : XRootDStatus) :
    (p.Examine st).2 = ⟨(p.cnt + (wsize - 1)) % wsize,
      if st.IsOK then (p.succeeded + 1) % wsize else p.succeeded, p.threshold⟩ := by
  cases hok : st.IsOK with
  | true =>
    by_cases hb : (p.succeeded + 1) % wsize = p.threshold <;>
      simp [SomePolicy.Examine, hok, hb, beq_iff_eq]
  | false =>
    by_cases hb : p.cnt = p.threshold <;>
      simp [SomePolicy.Examine, hok, hb, beq_iff_eq]

/-- The `AtLeastPolicy` counter is decremented by every `Examine` call;
the threshold is immutable. -/
theorem AtLeastPolicy.Examine_snd_keep (p : AtLeastPolicy) (st : XRootDStatus) :
    (p.Examine st).2 = ⟨(p.cnt + (wsize - 1)) % wsize, p.threshold⟩ := by
  simp only [AtLeastPolicy.Examine]
  split
  · rfl
  · split <;> rfl

/-- After `i` completions, the `AnyPolicy` counter holds `n - i`
(no wrap-around while at most `n` tasks have completed). -/
theorem runTrace_AnyP (sts : List XRootDStatus) (n : Nat)
    (hlen : sts.length ≤ n) (hn : n < wsize) :
    PolicyExecutor.runTrace (.AnyP ⟨n⟩) sts = .AnyP ⟨n - sts.length⟩ := by
  induction sts generalizing n with
  | nil => simp [PolicyExecutor.runTrace]
  | cons st sts ih =>
    simp only [List.length_cons] at hlen
    have h1 : 1 ≤ n := by omega
    rw [PolicyExecutor.runTrace_cons]
    have hstep : (PolicyExecutor.Examine (.AnyP ⟨n⟩) st).2 = .AnyP ⟨n - 1⟩ := by
      simp [PolicyExecutor.Examine, AnyPolicy.Examine_snd_cnt, sub_one_mod_wsize h1 hn]
    rw [hstep, ih (n - 1) (by omega) (by omega)]
    simp only [List.length_cons, PolicyExecutor.AnyP.injEq, AnyPolicy.mk.injEq]
    omega

/-- After a trace of completions, the `SomePolicy` state is: counter
`n - i`, success counter incremented by the number of successes, threshold
unchanged. -/
theorem runTrace_SomeP (sts : List XRootDStatus) (n s k : Nat)
    (hlen : sts.length ≤ n) (hn : n < wsize) (hs : s + sts.length < wsize) :
    PolicyExecutor.runTrace (.SomeP ⟨n, s, k⟩) sts =
      .SomeP ⟨n - sts.length, s + countOK sts, k⟩ := by
  induction sts generalizing n s with
  | nil => simp [PolicyExecutor.runTrace, countOK_nil]
  | cons st sts ih =>
    simp only [List.length_cons] at hlen hs
    have h1 : 1 ≤ n := by omega
    rw [PolicyExecutor.runTrace_cons]
    cases hok : st.IsOK with
    | true =>
      have hstep : (PolicyExecutor.Examine (.SomeP ⟨n, s, k⟩) st).2 =
          .SomeP ⟨n - 1, s + 1, k⟩ := by
        simp [PolicyExecutor.Examine, SomePolicy.Examine_snd_state, hok,
          sub_one_mod_wsize h1 hn, add_one_mod_wsize (by omega : s + 1 < wsize)]
      rw [hstep, ih (n - 1) (s + 1) (by omega) (by omega) (by omega)]
      have hc : countOK (st :: sts) = countOK sts + 1 := by
        simp [countOK_cons, hok]
      rw [List.length_cons, hc]
      simp only [PolicyExecutor.SomeP.injEq, SomePolicy.mk.injEq]
      refine ⟨by omega, by omega, trivial⟩
    | false =>
      have hstep : (PolicyExecutor.Examine (.SomeP ⟨n, s, k⟩) st).2 =
          .SomeP ⟨n - 1, s, k⟩ := by
        simp [PolicyExecutor.Examine, SomePolicy.Examine_snd_state, hok,
          sub_one_mod_wsize h1 hn]
      rw [hstep, ih (n - 1) s (by omega) (by omega) (by omega)]
      have hc : countOK (st :: sts) = countOK sts := by
        simp [countOK_cons, hok]
      rw [List.length_cons, hc]
      simp only [PolicyExecutor.SomeP.injEq, SomePolicy.mk.injEq]
      refine ⟨by omega, trivial, trivial⟩

/-- After `i` completions, the `AtLeastPolicy` counter holds `n - i` and
the threshold is unchanged. -/
theorem runTrace_AtLeastP (sts : List XRootDStatus) (n k : Nat)
    (hlen : sts.length ≤ n) (hn : n < wsize) :
    PolicyExecutor.runTrace (.AtLeastP ⟨n, k⟩) sts = .AtLeastP ⟨n - sts.length, k⟩ := by
  induction sts generalizing n with
  | nil => simp [PolicyExecutor.runTrace]
  | cons st sts ih =>
    simp only [List.length_cons] at hlen
    have h1 : 1 ≤ n := by omega
    rw [PolicyExecutor.runTrace_cons]
    have hstep : (PolicyExecutor.Examine (.AtLeastP ⟨n, k⟩) st).2 = .AtLeastP ⟨n - 1, k⟩ := by
      simp [PolicyExecutor.Examine, AtLeastPolicy.Examine_snd_keep, sub_one_mod_wsize h1 hn]
    rw [hstep, ih (n - 1) (by omega) (by omega)]
    have : n - 1 - sts.length = n - (sts.length + 1) := by omega
    rw [List.length_cons, this]

/-! ### Per-variant dispatch lemmas -/

theorem PolicyExecutor.Examine_AllP (p : AllPolicy) (st : XRootDStatus) :
    PolicyExecutor.Examine (.AllP p) st = ((p.Examine st).1, .AllP (p.Examine st).2) := rfl

theorem PolicyExecutor.Examine_AnyP (p : AnyPolicy) (st : XRootDStatus) :
    PolicyExecutor.Examine (.AnyP p) st = ((p.Examine st).1, .AnyP (p.Examine st).2) := rfl

theorem PolicyExecutor.Examine_SomeP (p : SomePolicy) (st : XRootDStatus) :
    PolicyExecutor.Examine (.SomeP p) st = ((p.Examine st).1, .SomeP (p.Examine st).2) := rfl

theorem PolicyExecutor.Examine_AtLeastP (p : AtLeastPolicy) (st : XRootDStatus) :
    PolicyExecutor.Examine (.AtLeastP p) st = ((p.Examine st).1, .AtLeastP (p.Examine st).2) := rfl

/-- The `All` decision is simply the negation of the status tag. -/
theorem AllPolicy.Examine_fst (p : AllPolicy) (st : XRootDStatus) :
    (p.Examine st).1 = !st.IsOK := by
  cases hok : st.IsOK <;> simp [AllPolicy.Examine, hok]

theorem Ctx.ExamineMany_nil (c : Ctx) : c.ExamineMany [] = (c, []) := rfl

theorem Ctx.ExamineMany_cons (c : Ctx) (st : XRootDStatus) (sts : List XRootDStatus) :
    c.ExamineMany (st :: sts) =
      (((c.Examine st).1.ExamineMany sts).1,
        (c.Examine st).2 ++ ((c.Examine st).1.ExamineMany sts).2) := rfl

/-! ### The `All` policy through the gate -/

/-- Characterization of a full `All`-policy run: the gate delivers the
first failure of the trace, or the default success when there is none. -/
theorem runAll_AllP (h : PipelineHandler) (sts : List XRootDStatus) :
    Ctx.runAll ⟨some h, .AllP ⟨⟩⟩ sts =
      match sts.find? (fun st => !st.IsOK) with
      | some f => [f]
      | none => [XRootDStatus.default] := by
  induction sts with
  | nil => rfl
  | cons st sts ih =>
    rw [Ctx.runAll_cons]
    cases hok : st.IsOK with
    | true =>
      have hb : (PolicyExecutor.Examine (.AllP ⟨⟩) st).1 = false := by
        simp [PolicyExecutor.Examine_AllP, AllPolicy.Examine_fst, hok]
      rw [Ctx.Examine_some_false h _ st hb]
      have h2 : (PolicyExecutor.Examine (.AllP ⟨⟩) st).2 = .AllP ⟨⟩ := rfl
      rw [h2, List.nil_append, ih, List.find?_cons_of_neg _ (by simp [hok])]
    | false =>
      have hb : (PolicyExecutor.Examine (.AllP ⟨⟩) st).1 = true := by
        simp [PolicyExecutor.Examine_AllP, AllPolicy.Examine_fst, hok]
      rw [Ctx.Examine_some_true h _ st hb]
      simp only [Ctx.runAll_none, List.append_nil]
      rw [List.find?_cons_of_pos _ (by simp [hok])]

/-- While only successes arrive, an `All`-policy gate delivers nothing and
keeps its handler. -/
theorem ExamineMany_AllP_ok (h : PipelineHandler) (sts : List XRootDStatus)
    (hok : ∀ st ∈ sts, st.IsOK = true) :
    Ctx.ExamineMany ⟨some h, .AllP ⟨⟩⟩ sts = (⟨some h, .AllP ⟨⟩⟩, []) := by
  induction sts with
  | nil => rfl
  | cons st sts ih =>
    have h1 : st.IsOK = true := hok st (by simp)
    have hb : (PolicyExecutor.Examine (.AllP ⟨⟩) st).1 = false := by
      simp [PolicyExecutor.Examine_AllP, AllPolicy.Examine_fst, h1]
    rw [Ctx.ExamineMany_cons, Ctx.Examine_some_false h _ st hb]
    have h2 : (PolicyExecutor.Examine (.AllP ⟨⟩) st).2 = .AllP ⟨⟩ := rfl
    rw [h2, ih (fun q hq => hok q (by simp [hq]))]
    simp

/-! ### `Some` with threshold `1` simulates `Any` -/

/-- Gate-level bisimulation: a `SomePolicy` with threshold `1` and an
`AnyPolicy` with the same counter deliver identical status lists, for every
trace, provided the success counter is still `0` whenever the handler is
still present (as it is at activation). -/
theorem runAll_SomeP_one_eq_AnyP (sts : List XRootDStatus) (c s : Nat)
    (hdl : Option PipelineHandler) (hs : ∀ x, hdl = some x → s = 0) :
    Ctx.runAll ⟨hdl, .SomeP ⟨c, s, 1⟩⟩ sts = Ctx.runAll ⟨hdl, .AnyP ⟨c⟩⟩ sts := by
  induction sts generalizing c s hdl with
  | nil => cases hdl <;> rfl
  | cons st sts ih =>
    cases hdl with
    | none => rw [Ctx.runAll_none, Ctx.runAll_none]
    | some x =>
      have hs0 : s = 0 := hs x rfl
      subst hs0
      rw [Ctx.runAll_cons, Ctx.runAll_cons]
      cases hok : st.IsOK with
      | true =>
        have hbS : (PolicyExecutor.Examine (.SomeP ⟨c, 0, 1⟩) st).1 = true := by
          simp [PolicyExecutor.Examine_SomeP, SomePolicy.Examine, hok, one_mod_wsize]
        have hbA : (PolicyExecutor.Examine (.AnyP ⟨c⟩) st).1 = true := by
          simp [PolicyExecutor.Examine_AnyP, AnyPolicy.Examine, hok]
        rw [Ctx.Examine_some_true x _ st hbS, Ctx.Examine_some_true x _ st hbA]
        rw [Ctx.runAll_none, Ctx.runAll_none]
      | false =>
        by_cases hc : c = 1
        · have hbS : (PolicyExecutor.Examine (.SomeP ⟨c, 0, 1⟩) st).1 = true := by
            simp [PolicyExecutor.Examine_SomeP, SomePolicy.Examine, hok, hc]
          have hbA : (PolicyExecutor.Examine (.AnyP ⟨c⟩) st).1 = true := by
            simp [PolicyExecutor.Examine_AnyP, AnyPolicy.Examine, hok, hc]
          rw [Ctx.Examine_some_true x _ st hbS, Ctx.Examine_some_true x _ st hbA]
          rw [Ctx.runAll_none, Ctx.runAll_none]
        · have hbS : (PolicyExecutor.Examine (.SomeP ⟨c, 0, 1⟩) st).1 = false := by
            simp [PolicyExecutor.Examine_SomeP, SomePolicy.Examine, hok, beq_iff_eq, hc]
          have hbA : (PolicyExecutor.Examine (.AnyP ⟨c⟩) st).1 = false := by
            simp [PolicyExecutor.Examine_AnyP, AnyPolicy.Examine, hok, beq_iff_eq, hc]
          rw [Ctx.Examine_some_false x _ st hbS, Ctx.Examine_some_false x _ st hbA]
          have h2S : (PolicyExecutor.Examine (.SomeP ⟨c, 0, 1⟩) st).2 =
              .SomeP ⟨(c + (wsize - 1)) % wsize, 0, 1⟩ := by
            simp [PolicyExecutor.Examine_SomeP, SomePolicy.Examine_snd_state, hok]
          have h2A : (PolicyExecutor.Examine (.AnyP ⟨c⟩) st).2 =
              .AnyP ⟨(c + (wsize - 1)) % wsize⟩ := by
            simp [PolicyExecutor.Examine_AnyP, AnyPolicy.Examine_snd_cnt]
          rw [h2S, h2A, List.nil_append, List.nil_append]
          exact ih ((c + (wsize - 1)) % wsize) 0 (some x) (fun y _ => rfl)

/-! ### `Some` below its threshold only ever delivers successes -/

/-- If the remaining count is already strictly below the threshold and at
most `cnt` completions are still to come, a `SomePolicy` gate can only
deliver success statuses: a failure can never cross `nb == threshold`
again, so the delivered status is an explicitly examined success or the
implicit default. -/
theorem runAll_SomeP_below_ok (sts : List XRootDStatus) (c s t : Nat)
    (hdl : Option PipelineHandler) (hlen : sts.length ≤ c) (hct : c < t)
    (hcw : c < wsize) :
    ∀ x ∈ Ctx.runAll ⟨hdl, .SomeP ⟨c, s, t⟩⟩ sts, x.IsOK = true := by
  induction sts generalizing c s hdl with
  | nil =>
    cases hdl with
    | none => rw [Ctx.runAll_none]; simp
    | some x =>
      rw [Ctx.runAll_nil]
      simp [Ctx.dtor, Ctx.Handle, XRootDStatus.default, XRootDStatus.IsOK]
  | cons st sts ih =>
    cases hdl with
    | none => rw [Ctx.runAll_none]; simp
    | some x =>
      simp only [List.length_cons] at hlen
      have h1 : 1 ≤ c := by omega
      have hc1 : (c + (wsize - 1)) % wsize = c - 1 := sub_one_mod_wsize h1 hcw
      rw [Ctx.runAll_cons]
      cases hok : st.IsOK with
      | false =>
        have hb : (PolicyExecutor.Examine (.SomeP ⟨c, s, t⟩) st).1 = false := by
          have hne : (c == t) = false := by
            simp only [beq_eq_false_iff_ne, ne_eq]
            omega
          simp [PolicyExecutor.Examine_SomeP, SomePolicy.Examine, hok, hne]
        rw [Ctx.Examine_some_false x _ st hb]
        have h2 : (PolicyExecutor.Examine (.SomeP ⟨c, s, t⟩) st).2 =
            .SomeP ⟨c - 1, s, t⟩ := by
          simp [PolicyExecutor.Examine_SomeP, SomePolicy.Examine_snd_state, hok, hc1]
        rw [h2, List.nil_append]
        exact ih (c - 1) s (some x) (by omega) (by omega) (by omega)
      | true =>
        by_cases hd : (s + 1) % wsize = t
        · have hb : (PolicyExecutor.Examine (.SomeP ⟨c, s, t⟩) st).1 = true := by
            simp [PolicyExecutor.Examine_SomeP, SomePolicy.Examine, hok, beq_iff_eq, hd]
          rw [Ctx.Examine_some_true x _ st hb, Ctx.runAll_none]
          intro y hy
          simp at hy
          subst hy
          exact hok
        · have hb : (PolicyExecutor.Examine (.SomeP ⟨c, s, t⟩) st).1 = false := by
            simp [PolicyExecutor.Examine_SomeP, SomePolicy.Examine, hok, beq_iff_eq, hd]
          rw [Ctx.Examine_some_false x _ st hb]
          have h2 : (PolicyExecutor.Examine (.SomeP ⟨c, s, t⟩) st).2 =
              .SomeP ⟨c - 1, (s + 1) % wsize, t⟩ := by
            simp [PolicyExecutor.Examine_SomeP, SomePolicy.Examine_snd_state, hok, hc1]
          rw [h2, List.nil_append]
          exact ih (c - 1) ((s + 1) % wsize) (some x) (by omega) (by omega) (by omega)

/-! ### The launch loop and `RunImpl` -/

/-- A launch loop over pipelines that all launch cleanly completes and
counts them all. -/
theorem runLoop_all_ok (ps : List Pipeline) (j : Nat)
    (hok : ∀ p ∈ ps, p.launch = .ok) :
    runLoop ps j = (none, j + ps.length) := by
  induction ps generalizing j with
  | nil => simp [runLoop]
  | cons p ps ih =>
    have hp : p.launch = .ok := hok p (by simp)
    rw [show runLoop (p :: ps) j = runLoop ps (j + 1) by simp [runLoop, hp]]
    rw [ih (j + 1) (fun q hq => hok q (by simp [hq]))]
    simp only [List.length_cons, Prod.mk.injEq, true_and]
    omega

/-- A launch loop whose first throwing pipeline is `bad` stops there,
returning the caught status and the number of pipelines launched before
`bad`. -/
theorem runLoop_throws (good : List Pipeline) (bad : Pipeline)
    (rest : List Pipeline) (e : XRootDStatus) (j : Nat)
    (hok : ∀ p ∈ good, p.launch = .ok) (hbad : bad.launch.throws = some e) :
    runLoop (good ++ bad :: rest) j = (some e, j + good.length) := by
  induction good generalizing j with
  | nil =>
    cases hb : bad.launch with
    | ok => rw [hb] at hbad; simp [LaunchResult.throws] at hbad
    | pipelineEx e2 =>
      rw [hb] at hbad
      simp only [LaunchResult.throws, Option.some.injEq] at hbad
      simp [runLoop, hb, hbad]
    | stdEx w =>
      rw [hb] at hbad
      simp only [LaunchResult.throws, Option.some.injEq] at hbad
      simp [runLoop, hb, hbad]
  | cons p good ih =>
    have hp : p.launch = .ok := hok p (by simp)
    rw [List.cons_append,
      show runLoop (p :: (good ++ bad :: rest)) j = runLoop (good ++ bad :: rest) (j + 1) by
        simp [runLoop, hp]]
    rw [ih (j + 1) (fun q hq => hok q (by simp [hq]))]
    simp only [List.length_cons, Prod.mk.injEq, true_and]
    omega

/-- `RunImpl` when every launch succeeds and there is at least one task:
it returns the default success status, launches every pipeline, delivers
nothing itself, and the gate survives with the handler and the effective
policy, held by the launched closures. -/
theorem RunImpl_all_ok (op : ParallelOperation) (h : PipelineHandler) (pt : Nat)
    (hok : ∀ p ∈ op.pipelines, p.launch = .ok) (hne : op.pipelines ≠ []) :
    op.RunImpl h pt = ⟨XRootDStatus.default, op.pipelines.length, [],
      some ⟨some h, op.effPolicy⟩,
      if pt < op.timeout then pt else op.timeout⟩ := by
  unfold ParallelOperation.RunImpl
  rw [runLoop_all_ok op.pipelines 0 hok]
  have hlen : op.pipelines.length ≠ 0 := by
    simpa [List.length_eq_zero] using hne
  simp [hlen]

/-- `RunImpl` when the launch loop throws: the caught status is returned as
the immediate result, only the pipelines before the throwing one are
launched and, when none was, the local release of the gate is the last one,
so the destructor delivers the default success to the handler during
`RunImpl` itself. -/
theorem RunImpl_throws (op : ParallelOperation) (h : PipelineHandler) (pt : Nat)
    (good : List Pipeline) (bad : Pipeline) (rest : List Pipeline) (e : XRootDStatus)
    (hsplit : op.pipelines = good ++ bad :: rest)
    (hok : ∀ p ∈ good, p.launch = .ok) (hbad : bad.launch.throws = some e) :
    op.RunImpl h pt =
      if good.length = 0 then
        ⟨e, 0, [XRootDStatus.default], none, if pt < op.timeout then pt else op.timeout⟩
      else
        ⟨e, good.length, [], some ⟨some h, op.effPolicy⟩,
          if pt < op.timeout then pt else op.timeout⟩ := by
  unfold ParallelOperation.RunImpl
  rw [hsplit, runLoop_throws good bad rest e 0 hok hbad]
  by_cases hg : good.length = 0
  · simp [hg, Ctx.dtor, Ctx.Handle]
  · simp [hg]

/-! ### Claim theorems -/

/-- Claim C1: for every activation with at least one task and any selected
policy, and for every sequence of task-completion `Examine` calls followed
by the release of the last shared reference to the `Ctx` gate, the pipeline
handler is invoked exactly once, with exactly one status value: the
statuses delivered during `RunImpl` together with those delivered by the
completion race and the final release always form a one-element list. -/
theorem c1_handler_invoked_exactly_once (op : ParallelOperation)
    (h : PipelineHandler) (pt : Nat) (c : Ctx) (hne : op.pipelines ≠ [])
    (hok : ∀ p ∈ op.pipelines, p.launch = LaunchResult.ok)
    (hctx : (op.RunImpl h pt).ctx = some c) (sts : List XRootDStatus) :
    ((op.RunImpl h pt).outputs ++ c.runAll sts).length = 1 := by
  rw [RunImpl_all_ok op h pt hok hne] at hctx ⊢
  simp only [Option.some.injEq] at hctx
  subst hctx
  simp [Ctx.runAll_some_length]

/-- Witness for C1 at a concrete activation: one task, default policy, one
failure completion. -/
theorem c1_witness :
    ((⟨[⟨"p", .ok⟩], none, 0⟩ : ParallelOperation).pipelines ≠ [] ∧
      (∀ p ∈ (⟨[⟨"p", .ok⟩], none, 0⟩ : ParallelOperation).pipelines,
        p.launch = LaunchResult.ok) ∧
      ((⟨[⟨"p", .ok⟩], none, 0⟩ : ParallelOperation).RunImpl ⟨0⟩ 3).ctx =
        some ⟨some ⟨0⟩, .AllP ⟨⟩⟩) ∧
    (((⟨[⟨"p", .ok⟩], none, 0⟩ : ParallelOperation).RunImpl ⟨0⟩ 3).outputs ++
      Ctx.runAll ⟨some ⟨0⟩, .AllP ⟨⟩⟩ [⟨stError, "e"⟩]).length = 1 :=
  ⟨⟨by decide, by decide, by decide⟩,
    c1_handler_invoked_exactly_once ⟨[⟨"p", .ok⟩], none, 0⟩ ⟨0⟩ 3
      ⟨some ⟨0⟩, .AllP ⟨⟩⟩ (by decide) (by decide) (by decide) [⟨stError, "e"⟩]⟩

/-- Counterexample to claim C2: when the very first launch throws a
`PipelineException`, `RunImpl` returns the caught failure as its immediate
result, but the handler IS invoked through the gate as a result of the
aborting launch loop — the local release of the last shared reference runs
the `Ctx` destructor, which delivers the default success status. -/
theorem c2_counterexample :
    ((⟨[⟨"p", .pipelineEx ⟨stError, "boom"⟩⟩], none, 0⟩ :
        ParallelOperation).RunImpl ⟨0⟩ 5).status = ⟨stError, "boom"⟩ ∧
    ((⟨[⟨"p", .pipelineEx ⟨stError, "boom"⟩⟩], none, 0⟩ :
        ParallelOperation).RunImpl ⟨0⟩ 5).outputs = [XRootDStatus.default] ∧
    ((⟨[⟨"p", .pipelineEx ⟨stError, "boom"⟩⟩], none, 0⟩ :
        ParallelOperation).RunImpl ⟨0⟩ 5).outputs ≠ [] := by
  decide

/-- Claim C2 (amended): a synchronous launch failure aborts the loop and is
returned as `RunImpl`'s own immediate result, with exactly the tasks before
the throwing one launched; the handler is nonetheless still invoked exactly
once through the gate — immediately during the abort, with the default
success outcome, when the exception occurred before any task was started,
and otherwise exactly once later, when the already-started tasks'
completions release the gate. -/
theorem c2_launch_abort (op : ParallelOperation) (h : PipelineHandler) (pt : Nat)
    (good : List Pipeline) (bad : Pipeline) (rest : List Pipeline)
    (e : XRootDStatus) (hsplit : op.pipelines = good ++ bad :: rest)
    (hok : ∀ p ∈ good, p.launch = LaunchResult.ok)
    (hbad : bad.launch.throws = some e) :
    (op.RunImpl h pt).status = e ∧
    (op.RunImpl h pt).launched = good.length ∧
    (good = [] →
      (op.RunImpl h pt).outputs = [XRootDStatus.default] ∧
      (op.RunImpl h pt).ctx = none) ∧
    (good ≠ [] →
      (op.RunImpl h pt).outputs = [] ∧
      (op.RunImpl h pt).ctx = some ⟨some h, op.effPolicy⟩ ∧
      ∀ sts, (Ctx.runAll ⟨some h, op.effPolicy⟩ sts).length = 1) := by
  rw [RunImpl_throws op h pt good bad rest e hsplit hok hbad]
  by_cases hg : good = []
  · subst hg
    simp
  · have hlen : ¬ good.length = 0 := by
      simpa [List.length_eq_zero] using hg
    simp [hlen, hg, Ctx.runAll_some_length]

/-- Witness for the amended C2: one successfully launched task followed by
a task whose launch throws. -/
theorem c2_witness :
    ((⟨[⟨"a", .ok⟩, ⟨"b", .stdEx "oops"⟩], none, 0⟩ : ParallelOperation).pipelines =
        [⟨"a", .ok⟩] ++ ⟨"b", .stdEx "oops"⟩ :: [] ∧
      (∀ p ∈ [(⟨"a", .ok⟩ : Pipeline)], p.launch = LaunchResult.ok) ∧
      (Pipeline.launch ⟨"b", .stdEx "oops"⟩).throws = some ⟨stError, "oops"⟩) ∧
    ((⟨[⟨"a", .ok⟩, ⟨"b", .stdEx "oops"⟩], none, 0⟩ :
        ParallelOperation).RunImpl ⟨1⟩ 4).status = ⟨stError, "oops"⟩ ∧
    ((⟨[⟨"a", .ok⟩, ⟨"b", .stdEx "oops"⟩], none, 0⟩ :
        ParallelOperation).RunImpl ⟨1⟩ 4).launched = [(⟨"a", .ok⟩ : Pipeline)].length ∧
    ([(⟨"a", .ok⟩ : Pipeline)] = [] →
      ((⟨[⟨"a", .ok⟩, ⟨"b", .stdEx "oops"⟩], none, 0⟩ :
          ParallelOperation).RunImpl ⟨1⟩ 4).outputs = [XRootDStatus.default] ∧
      ((⟨[⟨"a", .ok⟩, ⟨"b", .stdEx "oops"⟩], none, 0⟩ :
          ParallelOperation).RunImpl ⟨1⟩ 4).ctx = none) ∧
    ([(⟨"a", .ok⟩ : Pipeline)] ≠ [] →
      ((⟨[⟨"a", .ok⟩, ⟨"b", .stdEx "oops"⟩], none, 0⟩ :
          ParallelOperation).RunImpl ⟨1⟩ 4).outputs = [] ∧
      ((⟨[⟨"a", .ok⟩, ⟨"b", .stdEx "oops"⟩], none, 0⟩ :
          ParallelOperation).RunImpl ⟨1⟩ 4).ctx =
        some ⟨some ⟨1⟩, (⟨[⟨"a", .ok⟩, ⟨"b", .stdEx "oops"⟩], none, 0⟩ :
          ParallelOperation).effPolicy⟩ ∧
      ∀ sts, (Ctx.runAll ⟨some ⟨1⟩, (⟨[⟨"a", .ok⟩, ⟨"b", .stdEx "oops"⟩], none, 0⟩ :
        ParallelOperation).effPolicy⟩ sts).length = 1) :=
  ⟨⟨by decide, by decide, by decide⟩,
    c2_launch_abort ⟨[⟨"a", .ok⟩, ⟨"b", .stdEx "oops"⟩], none, 0⟩ ⟨1⟩ 4
      [⟨"a", .ok⟩] ⟨"b", .stdEx "oops"⟩ [] ⟨stError, "oops"⟩
      (by decide) (by decide) (by decide)⟩

/-- Claim C8: `AllPolicy::Examine` returns `false` on every success and
`true` on every failure, and a full `All`-policy run through the gate
delivers exactly the first failure of the completion sequence (later
completions deliver nothing), or the default success when every completion
succeeded. -/
theorem c8_all_first_failure :
    (∀ (p : AllPolicy) (st : XRootDStatus), (p.Examine st).1 = !st.IsOK) ∧
    (∀ (h : PipelineHandler) (sts : List XRootDStatus),
      Ctx.runAll ⟨some h, .AllP ⟨⟩⟩ sts =
        match sts.find? (fun st => !st.IsOK) with
        | some f => [f]
        | none => [XRootDStatus.default]) :=
  ⟨AllPolicy.Examine_fst, runAll_AllP⟩

/-- Claim C10: constructing a `ParallelOperation` from an empty container
succeeds and leaves the container empty, `ToString` renders `"Parallel()"`,
and activation returns the success immediate-status, launches zero tasks,
and invokes the handler exactly once with the default success outcome via
the implicit finalize inside `RunImpl`. -/
theorem c10_empty_container :
    (ParallelOperation.mkFromContainer []).1.pipelines = [] ∧
    (ParallelOperation.mkFromContainer []).2 = [] ∧
    (ParallelOperation.mkFromContainer []).1.ToString = "Parallel()" ∧
    ((ParallelOperation.mkFromContainer []).1.RunImpl ⟨0⟩ 7).status =
      XRootDStatus.default ∧
    ((ParallelOperation.mkFromContainer []).1.RunImpl ⟨0⟩ 7).status.IsOK = true ∧
    ((ParallelOperation.mkFromContainer []).1.RunImpl ⟨0⟩ 7).launched = 0 ∧
    ((ParallelOperation.mkFromContainer []).1.RunImpl ⟨0⟩ 7).outputs =
      [XRootDStatus.default] := by
  decide

/-- Claim C7: releasing the last shared holder of the gate while the
handler slot is still occupied invokes the handler with the default
success outcome; in particular, under the `All` policy with every
completion successful, nothing is delivered during the completions, the
slot stays occupied until the end, and the single delivery is the default
success produced by the final release. -/
theorem c7_implicit_finalize_default_success :
    (∀ (c : Ctx) (x : PipelineHandler), c.handler = some x →
      c.dtor = (⟨none, c.policy⟩, [XRootDStatus.default])) ∧
    (∀ (h : PipelineHandler) (sts : List XRootDStatus),
      (∀ st ∈ sts, st.IsOK = true) →
      (Ctx.ExamineMany ⟨some h, .AllP ⟨⟩⟩ sts).2 = [] ∧
      (Ctx.ExamineMany ⟨some h, .AllP ⟨⟩⟩ sts).1.handler = some h ∧
      Ctx.runAll ⟨some h, .AllP ⟨⟩⟩ sts = [XRootDStatus.default]) := by
  constructor
  · intro c x hc
    simp [Ctx.dtor, Ctx.Handle, hc]
  · intro h sts hok
    refine ⟨?_, ?_, ?_⟩
    · rw [ExamineMany_AllP_ok h sts hok]
    · rw [ExamineMany_AllP_ok h sts hok]
    · rw [Ctx.runAll, ExamineMany_AllP_ok h sts hok]
      rfl

/-- Witness for C7: a gate with an occupied slot, and an `All` run with
three successful completions. -/
theorem c7_witness :
    ((⟨some ⟨2⟩, .AnyP ⟨5⟩⟩ : Ctx).handler = some ⟨2⟩ ∧
      Ctx.dtor ⟨some ⟨2⟩, .AnyP ⟨5⟩⟩ =
        (⟨none, .AnyP ⟨5⟩⟩, [XRootDStatus.default])) ∧
    ((∀ st ∈ [(⟨stOK, ""⟩ : XRootDStatus), ⟨stOK, ""⟩, ⟨stOK, ""⟩], st.IsOK = true) ∧
      (Ctx.ExamineMany ⟨some ⟨0⟩, .AllP ⟨⟩⟩
        [⟨stOK, ""⟩, ⟨stOK, ""⟩, ⟨stOK, ""⟩]).2 = [] ∧
      (Ctx.ExamineMany ⟨some ⟨0⟩, .AllP ⟨⟩⟩
        [⟨stOK, ""⟩, ⟨stOK, ""⟩, ⟨stOK, ""⟩]).1.handler = some ⟨0⟩ ∧
      Ctx.runAll ⟨some ⟨0⟩, .AllP ⟨⟩⟩ [⟨stOK, ""⟩, ⟨stOK, ""⟩, ⟨stOK, ""⟩] =
        [XRootDStatus.default]) :=
  ⟨⟨rfl, c7_implicit_finalize_default_success.1 ⟨some ⟨2⟩, .AnyP ⟨5⟩⟩ ⟨2⟩ rfl⟩,
    ⟨by decide, c7_implicit_finalize_default_success.2 ⟨0⟩
      [⟨stOK, ""⟩, ⟨stOK, ""⟩, ⟨stOK, ""⟩] (by decide)⟩⟩

/-- Claim C6: `AnyPolicy::Examine` returns `true` on every success; on a
failure arriving after a trace of `i < n` completions it returns `true`
exactly when the pre-decrement counter `n - i` equals `1`, i.e. when the
failure is the last remaining task; concretely, with `n = 3` and three
failures the gate delivers only on the third call, the last failure. -/
theorem c6_any_examine :
    (∀ (p : AnyPolicy) (st : XRootDStatus), st.IsOK = true →
      (p.Examine st).1 = true) ∧
    (∀ (n : Nat) (pre : List XRootDStatus) (st : XRootDStatus),
      pre.length < n → n < wsize → st.IsOK = false →
      ((PolicyExecutor.Examine (PolicyExecutor.runTrace (.AnyP ⟨n⟩) pre) st).1 = true ↔
        n - pre.length = 1)) ∧
    (Ctx.runAll ⟨some ⟨0⟩, .AnyP ⟨3⟩⟩
        [⟨stError, "e"⟩, ⟨stError, "e"⟩, ⟨stError, "e"⟩] = [⟨stError, "e"⟩] ∧
      (Ctx.ExamineMany ⟨some ⟨0⟩, .AnyP ⟨3⟩⟩ [⟨stError, "e"⟩, ⟨stError, "e"⟩]).2 = []) := by
  refine ⟨?_, ?_, by decide⟩
  · intro p st hok
    simp [AnyPolicy.Examine, hok]
  · intro n pre st hlen hn hok
    rw [runTrace_AnyP pre n (le_of_lt hlen) hn]
    by_cases he : n - pre.length = 1
    · simp [PolicyExecutor.Examine_AnyP, AnyPolicy.Examine, hok, he]
    · have hne : ((n - pre.length : Nat) == 1) = false := by
        simp only [beq_eq_false_iff_ne, ne_eq]
        omega
      simp [PolicyExecutor.Examine_AnyP, AnyPolicy.Examine, hok, hne, he]

/-- Witness for C6: a success is always decisive, and a failure after two
of four completions is not (the counter holds `2 ≠ 1`). -/
theorem c6_witness :
    ((⟨7⟩ : AnyPolicy).Examine ⟨stOK, ""⟩).1 = true ∧
    (([(⟨stOK, ""⟩ : XRootDStatus), ⟨stError, "e"⟩].length < 4 ∧ 4 < wsize ∧
        XRootDStatus.IsOK ⟨stError, "e"⟩ = false) ∧
      ((PolicyExecutor.Examine
        (PolicyExecutor.runTrace (.AnyP ⟨4⟩) [⟨stOK, ""⟩, ⟨stError, "e"⟩])
        ⟨stError, "e"⟩).1 = true ↔ 4 - [(⟨stOK, ""⟩ : XRootDStatus), ⟨stError, "e"⟩].length = 1)) :=
  ⟨c6_any_examine.1 ⟨7⟩ ⟨stOK, ""⟩ (by decide),
    ⟨⟨by decide, by decide, by decide⟩,
      c6_any_examine.2.1 4 [⟨stOK, ""⟩, ⟨stError, "e"⟩] ⟨stError, "e"⟩
        (by decide) (by decide) (by decide)⟩⟩

/-- Claim C5: for `SomePolicy(n, k)` reached after a trace of `i < n`
completions starting from a fresh activation, `Examine` on a success
returns `true` exactly when this call observes the `k`-th success, and on
a failure exactly when the pre-decrement remaining count `n - i` equals
`k`. -/
theorem c5_some_examine (n k : Nat) (pre : List XRootDStatus) (st : XRootDStatus)
    (hlen : pre.length < n) (hn : n < wsize) :
    (st.IsOK = true →
      ((PolicyExecutor.Examine (PolicyExecutor.runTrace (.SomeP ⟨n, 0, k⟩) pre) st).1 = true ↔
        countOK pre + 1 = k)) ∧
    (st.IsOK = false →
      ((PolicyExecutor.Examine (PolicyExecutor.runTrace (.SomeP ⟨n, 0, k⟩) pre) st).1 = true ↔
        n - pre.length = k)) := by
  rw [runTrace_SomeP pre n 0 k (le_of_lt hlen) hn (by omega)]
  have hcle : countOK pre ≤ pre.length := List.countP_le_length _
  have hmod : (countOK pre + 1) % wsize = countOK pre + 1 :=
    add_one_mod_wsize (by omega)
  constructor
  · intro hok
    have hfst : (PolicyExecutor.Examine (.SomeP ⟨n - pre.length, 0 + countOK pre, k⟩) st).1 =
        ((0 + countOK pre + 1) % wsize == k) := by
      by_cases hb : (countOK pre + 1) % wsize = k <;>
        simp [PolicyExecutor.Examine_SomeP, SomePolicy.Examine, hok, hb, beq_iff_eq]
    rw [hfst, Nat.zero_add, hmod]
    simp [beq_iff_eq]
  · intro hok
    have hfst : (PolicyExecutor.Examine (.SomeP ⟨n - pre.length, 0 + countOK pre, k⟩) st).1 =
        ((n - pre.length : Nat) == k) := by
      by_cases hb : n - pre.length = k <;>
        simp [PolicyExecutor.Examine_SomeP, SomePolicy.Examine, hok, hb, beq_iff_eq]
    rw [hfst]
    simp [beq_iff_eq]

/-- Witness for C5: with `n = 4`, `k = 2`, after one failure and one
success, a further success is the second one and is decisive. -/
theorem c5_witness :
    ([(⟨stError, "e"⟩ : XRootDStatus), ⟨stOK, ""⟩].length < 4 ∧ 4 < wsize) ∧
    ((XRootDStatus.IsOK ⟨stOK, ""⟩ = true →
      ((PolicyExecutor.Examine
        (PolicyExecutor.runTrace (.SomeP ⟨4, 0, 2⟩) [⟨stError, "e"⟩, ⟨stOK, ""⟩])
        ⟨stOK, ""⟩).1 = true ↔
        countOK [(⟨stError, "e"⟩ : XRootDStatus), ⟨stOK, ""⟩] + 1 = 2)) ∧
     (XRootDStatus.IsOK ⟨stOK, ""⟩ = false →
      ((PolicyExecutor.Examine
        (PolicyExecutor.runTrace (.SomeP ⟨4, 0, 2⟩) [⟨stError, "e"⟩, ⟨stOK, ""⟩])
        ⟨stOK, ""⟩).1 = true ↔
        4 - [(⟨stError, "e"⟩ : XRootDStatus), ⟨stOK, ""⟩].length = 2))) :=
  ⟨⟨by decide, by decide⟩,
    c5_some_examine 4 2 [⟨stError, "e"⟩, ⟨stOK, ""⟩] ⟨stOK, ""⟩ (by decide) (by decide)⟩

/-- Counterexample to claim C3: `AtLeastPolicy(3, 2)` after one success
returns `true` on a failure (the pre-decrement counter `2` equals `k`),
although obtaining at least `2` successes is still reachable: one success
has been observed and one task is still pending after this failure, so the
maximum achievable success count is `2 ≥ k`. -/
theorem c3_counterexample :
    (PolicyExecutor.Examine
      (PolicyExecutor.runTrace (.AtLeastP ⟨3, 2⟩) [⟨stOK, ""⟩]) ⟨stError, "e"⟩).1 = true ∧
    2 ≤ countOK [(⟨stOK, ""⟩ : XRootDStatus)] +
      (3 - [(⟨stOK, ""⟩ : XRootDStatus)].length - 1) := by
  decide

/-- Claim C3 (amended): `AtLeastPolicy(n, k)` never returns `true` on a
success; on a failure arriving after `i < n` completions it returns `true`
exactly when the pre-decrement remaining count `n - i` equals `k`.  This
coincides with "at least `k` successes has just become unreachable" only
when no success has been observed so far; with prior successes the policy
can report failure while `k` successes are still reachable. -/
theorem c3_atleast_examine (n k : Nat) (pre : List XRootDStatus) (st : XRootDStatus)
    (hlen : pre.length < n) (hn : n < wsize) :
    (st.IsOK = true →
      (PolicyExecutor.Examine (PolicyExecutor.runTrace (.AtLeastP ⟨n, k⟩) pre) st).1 = false) ∧
    (st.IsOK = false →
      ((PolicyExecutor.Examine (PolicyExecutor.runTrace (.AtLeastP ⟨n, k⟩) pre) st).1 = true ↔
        n - pre.length = k)) ∧
    (countOK pre = 0 →
      (n - pre.length = k ↔
        (k ≤ countOK pre + (n - pre.length) ∧ countOK pre + (n - pre.length) - 1 < k))) := by
  rw [runTrace_AtLeastP pre n k (le_of_lt hlen) hn]
  refine ⟨?_, ?_, ?_⟩
  · intro hok
    simp [PolicyExecutor.Examine_AtLeastP, AtLeastPolicy.Examine, hok]
  · intro hok
    have hfst : (PolicyExecutor.Examine (.AtLeastP ⟨n - pre.length, k⟩) st).1 =
        ((n - pre.length : Nat) == k) := by
      by_cases hb : n - pre.length = k <;>
        simp [PolicyExecutor.Examine_AtLeastP, AtLeastPolicy.Examine, hok, hb, beq_iff_eq]
    rw [hfst]
    simp [beq_iff_eq]
  · intro hc0
    rw [hc0]
    constructor
    · intro he
      omega
    · intro he
      omega

/-- Witness for the amended C3: `AtLeast(3, 2)` after one initial failure:
a success is never decisive, and a further failure is decisive exactly
because the pre-decrement count is `2 = k`, which here (no successes yet)
is also the unreachability boundary. -/
theorem c3_witness :
    ([(⟨stError, "e"⟩ : XRootDStatus)].length < 3 ∧ 3 < wsize) ∧
    ((XRootDStatus.IsOK ⟨stOK, ""⟩ = true →
      (PolicyExecutor.Examine
        (PolicyExecutor.runTrace (.AtLeastP ⟨3, 2⟩) [⟨stError, "e"⟩]) ⟨stOK, ""⟩).1 = false) ∧
     (XRootDStatus.IsOK ⟨stOK, ""⟩ = false →
      ((PolicyExecutor.Examine
        (PolicyExecutor.runTrace (.AtLeastP ⟨3, 2⟩) [⟨stError, "e"⟩]) ⟨stOK, ""⟩).1 = true ↔
        3 - [(⟨stError, "e"⟩ : XRootDStatus)].length = 2)) ∧
     (countOK [(⟨stError, "e"⟩ : XRootDStatus)] = 0 →
      (3 - [(⟨stError, "e"⟩ : XRootDStatus)].length = 2 ↔
        (2 ≤ countOK [(⟨stError, "e"⟩ : XRootDStatus)] +
            (3 - [(⟨stError, "e"⟩ : XRootDStatus)].length) ∧
          countOK [(⟨stError, "e"⟩ : XRootDStatus)] +
            (3 - [(⟨stError, "e"⟩ : XRootDStatus)].length) - 1 < 2)))) :=
  ⟨⟨by decide, by decide⟩,
    c3_atleast_examine 3 2 [⟨stError, "e"⟩] ⟨stOK, ""⟩ (by decide) (by decide)⟩

/-- Counterexample to claim C9: the out-of-range threshold `5 > n = 1`
passed to `Some` is not rejected anywhere: policy selection stores it
unchanged, activation launches the task and returns the success
immediate-status, and the run proceeds to completion (delivering the
implicit default success after the lone task fails). -/
theorem c9_counterexample :
    (ParallelOperation.Some ⟨[⟨"p", .ok⟩], none, 0⟩ 5).policy =
      some (.SomeP ⟨1, 0, 5⟩) ∧
    ((ParallelOperation.Some ⟨[⟨"p", .ok⟩], none, 0⟩ 5).RunImpl ⟨0⟩ 9).status =
      XRootDStatus.default ∧
    ((ParallelOperation.Some ⟨[⟨"p", .ok⟩], none, 0⟩ 5).RunImpl ⟨0⟩ 9).launched = 1 ∧
    Ctx.runAll ⟨some ⟨0⟩, .SomeP ⟨1, 0, 5⟩⟩ [⟨stError, "e"⟩] = [XRootDStatus.default] := by
  decide

/-- Claim C9 (amended): `Some(k)` and `AtLeast(k)` perform no validation of
the threshold: for every `k` — in range or not — they install the policy
with the given threshold unchanged, and activation proceeds normally
(when no launch throws it launches every pipeline and returns the success
immediate-status). -/
theorem c9_no_threshold_validation (op : ParallelOperation) (k : Nat)
    (h : PipelineHandler) (pt : Nat)
    (hok : ∀ p ∈ op.pipelines, p.launch = LaunchResult.ok) :
    (op.Some k).policy = some (.SomeP ⟨op.pipelines.length, 0, k⟩) ∧
    (op.AtLeast k).policy = some (.AtLeastP ⟨op.pipelines.length, k⟩) ∧
    ((op.Some k).RunImpl h pt).status = XRootDStatus.default ∧
    ((op.Some k).RunImpl h pt).launched = op.pipelines.length ∧
    ((op.AtLeast k).RunImpl h pt).status = XRootDStatus.default ∧
    ((op.AtLeast k).RunImpl h pt).launched = op.pipelines.length := by
  refine ⟨rfl, rfl, ?_⟩
  have hsome : (op.Some k).pipelines = op.pipelines := rfl
  have hatleast : (op.AtLeast k).pipelines = op.pipelines := rfl
  unfold ParallelOperation.RunImpl
  rw [hsome, hatleast, runLoop_all_ok op.pipelines 0 hok]
  by_cases hl : op.pipelines.length = 0
  · simp [hl]
  · simp [hl]

/-- Witness for the amended C9 at the out-of-range threshold `k = 7` with
`n = 2` tasks. -/
theorem c9_witness :
    (∀ p ∈ (⟨[⟨"a", .ok⟩, ⟨"b", .ok⟩], none, 0⟩ : ParallelOperation).pipelines,
      p.launch = LaunchResult.ok) ∧
    ((ParallelOperation.Some ⟨[⟨"a", .ok⟩, ⟨"b", .ok⟩], none, 0⟩ 7).policy =
      some (.SomeP ⟨(⟨[⟨"a", .ok⟩, ⟨"b", .ok⟩], none, 0⟩ :
        ParallelOperation).pipelines.length, 0, 7⟩) ∧
    (ParallelOperation.AtLeast ⟨[⟨"a", .ok⟩, ⟨"b", .ok⟩], none, 0⟩ 7).policy =
      some (.AtLeastP ⟨(⟨[⟨"a", .ok⟩, ⟨"b", .ok⟩], none, 0⟩ :
        ParallelOperation).pipelines.length, 7⟩) ∧
    ((ParallelOperation.Some ⟨[⟨"a", .ok⟩, ⟨"b", .ok⟩], none, 0⟩ 7).RunImpl ⟨0⟩ 4).status =
      XRootDStatus.default ∧
    ((ParallelOperation.Some ⟨[⟨"a", .ok⟩, ⟨"b", .ok⟩], none, 0⟩ 7).RunImpl ⟨0⟩ 4).launched =
      (⟨[⟨"a", .ok⟩, ⟨"b", .ok⟩], none, 0⟩ : ParallelOperation).pipelines.length ∧
    ((ParallelOperation.AtLeast ⟨[⟨"a", .ok⟩, ⟨"b", .ok⟩], none, 0⟩ 7).RunImpl ⟨0⟩ 4).status =
      XRootDStatus.default ∧
    ((ParallelOperation.AtLeast ⟨[⟨"a", .ok⟩, ⟨"b", .ok⟩], none, 0⟩ 7).RunImpl ⟨0⟩ 4).launched =
      (⟨[⟨"a", .ok⟩, ⟨"b", .ok⟩], none, 0⟩ : ParallelOperation).pipelines.length) :=
  ⟨by decide,
    c9_no_threshold_validation ⟨[⟨"a", .ok⟩, ⟨"b", .ok⟩], none, 0⟩ 7 ⟨0⟩ 4 (by decide)⟩

/-! ### Delivered-status characterizations for the `k = n` boundary -/

theorem headD_ok_of_all_ok (l : List XRootDStatus)
    (h : ∀ x ∈ l, x.IsOK = true) : (l.headD XRootDStatus.default).IsOK = true := by
  cases l with
  | nil => decide
  | cons a l => simpa using h a (by simp)

/-- On a success, the `Some` decision is the threshold test on the
incremented success counter. -/
theorem SomePolicy.Examine_fst_ok (p : SomePolicy) (st : XRootDStatus)
    (hok : st.IsOK = true) :
    (p.Examine st).1 = ((p.succeeded + 1) % wsize == p.threshold) := by
  by_cases hb : (p.succeeded + 1) % wsize = p.threshold <;>
    simp [SomePolicy.Examine, hok, hb, beq_iff_eq]

/-- On a failure, the `Some` decision is the threshold test on the
pre-decrement counter. -/
theorem SomePolicy.Examine_fst_err (p : SomePolicy) (st : XRootDStatus)
    (hok : st.IsOK = false) :
    (p.Examine st).1 = (p.cnt == p.threshold) := by
  by_cases hb : p.cnt = p.threshold <;>
    simp [SomePolicy.Examine, hok, hb, beq_iff_eq]

/-- The status an `All`-policy activation delivers is a success exactly
when every completion succeeded. -/
theorem deliveredOK_AllP (h : PipelineHandler) (sts : List XRootDStatus) :
    (((Ctx.runAll ⟨some h, .AllP ⟨⟩⟩ sts).headD XRootDStatus.default).IsOK = true) ↔
      ∀ st ∈ sts, st.IsOK = true := by
  cases hf : sts.find? (fun st => !st.IsOK) with
  | none =>
    rw [runAll_AllP h sts, hf]
    simp only [List.headD_cons]
    constructor
    · intro _ st hmem
      have := List.find?_eq_none.mp hf st hmem
      simpa using this
    · intro _
      decide
  | some f =>
    have hmem := List.mem_of_find?_eq_some hf
    have hprop : f.IsOK = false := by
      have := List.find?_some hf
      simpa using this
    rw [runAll_AllP h sts, hf]
    simp only [List.headD_cons]
    constructor
    · intro hcontr
      rw [hprop] at hcontr
      cases hcontr
    · intro hall
      have := hall f hmem
      rw [this] at hprop
      cases hprop

/-- The status a `Some(n, n)` activation delivers over a complete trace of
`n` completions is a success exactly when the trace does not begin with a
failure: an initial failure still has `nb == threshold` and is delivered,
while any later failure can never fire and the run falls back to a success
(the `n`-th examined success or the implicit default). -/
theorem deliveredOK_SomeP_nn (h : PipelineHandler) (n : Nat) (sts : List XRootDStatus)
    (hlen : sts.length = n) (hn : n < wsize) :
    (((Ctx.runAll ⟨some h, .SomeP ⟨n, 0, n⟩⟩ sts).headD XRootDStatus.default).IsOK = true) ↔
      (∀ f rest, sts = f :: rest → f.IsOK = true) := by
  have hn1 : n = sts.length := hlen.symm
  subst hn1
  cases sts with
  | nil =>
    rw [Ctx.runAll_nil]
    simp only [Ctx.dtor, Ctx.Handle, List.headD_cons]
    constructor
    · intro _ f rest heq
      cases heq
    · intro _
      decide
  | cons f rest =>
    cases hok : f.IsOK with
    | false =>
      have hb : (PolicyExecutor.Examine
          (.SomeP ⟨(f :: rest).length, 0, (f :: rest).length⟩) f).1 = true := by
        simp [PolicyExecutor.Examine_SomeP, SomePolicy.Examine, hok]
      rw [Ctx.runAll_cons, Ctx.Examine_some_true h _ f hb, Ctx.runAll_none]
      simp only [List.append_nil, List.headD_cons]
      constructor
      · intro hcontr
        rw [hok] at hcontr
        cases hcontr
      · intro hall
        have := hall f rest rfl
        rw [hok] at this
        cases this
    | true =>
      cases rest with
      | nil =>
        have hb : (PolicyExecutor.Examine (.SomeP ⟨1, 0, 1⟩) f).1 = true := by
          simp [PolicyExecutor.Examine_SomeP, SomePolicy.Examine, hok, one_mod_wsize]
        have hble : (PolicyExecutor.Examine
            (.SomeP ⟨([f] : List XRootDStatus).length, 0, ([f] : List XRootDStatus).length⟩) f).1
            = true := by
          simpa using hb
        rw [Ctx.runAll_cons, Ctx.Examine_some_true h _ f hble, Ctx.runAll_none]
        simp only [List.append_nil, List.headD_cons]
        constructor
        · intro _ f' rest' heq
          cases heq
          exact hok
        · intro _
          exact hok
      | cons g rest2 =>
        simp only [List.length_cons] at hn ⊢
        have hb : (PolicyExecutor.Examine
            (.SomeP ⟨rest2.length + 1 + 1, 0, rest2.length + 1 + 1⟩) f).1 = false := by
          simp only [PolicyExecutor.Examine_SomeP]
          rw [SomePolicy.Examine_fst_ok _ f hok]
          simp only [Nat.zero_add, one_mod_wsize, beq_eq_false_iff_ne, ne_eq]
          omega
        rw [Ctx.runAll_cons, Ctx.Examine_some_false h _ f hb]
        have h2 : (PolicyExecutor.Examine
            (.SomeP ⟨rest2.length + 1 + 1, 0, rest2.length + 1 + 1⟩) f).2 =
            .SomeP ⟨rest2.length + 1, 1, rest2.length + 1 + 1⟩ := by
          have hsub : (rest2.length + 1 + 1 + (wsize - 1)) % wsize = rest2.length + 1 := by
            have h3 := sub_one_mod_wsize (c := rest2.length + 1 + 1) (by omega) (by omega)
            omega
          simp [PolicyExecutor.Examine_SomeP, SomePolicy.Examine_snd_state, hok, hsub, one_mod_wsize]
        rw [h2, List.nil_append]
        have hallok := runAll_SomeP_below_ok (g :: rest2) (rest2.length + 1) 1
          (rest2.length + 1 + 1) (some h) (by simp) (by omega) (by omega)
        have hhead := headD_ok_of_all_ok _ hallok
        constructor
        · intro _ f' rest' heq
          cases heq
          exact hok
        · intro _
          exact hhead

/-- Counterexample to claim C4: on the complete trace `[success, failure]`
with `n = 2`, `SomePolicy(2, 2)` delivers the implicit default success
(the failure arrives with pre-decrement count `1 ≠ 2` and the second
success never comes), while `AllPolicy` delivers the failure — so
`Some(k = n)` does not deliver the same aggregate outcome as `All`. -/
theorem c4_counterexample :
    Ctx.runAll ⟨some ⟨0⟩, .SomeP ⟨2, 0, 2⟩⟩ [⟨stOK, ""⟩, ⟨stError, "e"⟩] =
      [XRootDStatus.default] ∧
    Ctx.runAll ⟨some ⟨0⟩, .AllP ⟨⟩⟩ [⟨stOK, ""⟩, ⟨stError, "e"⟩] = [⟨stError, "e"⟩] ∧
    ((Ctx.runAll ⟨some ⟨0⟩, .SomeP ⟨2, 0, 2⟩⟩ [⟨stOK, ""⟩, ⟨stError, "e"⟩]).headD
        XRootDStatus.default).IsOK = true ∧
    ((Ctx.runAll ⟨some ⟨0⟩, .AllP ⟨⟩⟩ [⟨stOK, ""⟩, ⟨stError, "e"⟩]).headD
        XRootDStatus.default).IsOK = false := by
  decide

/-- Claim C4 (amended): `SomePolicy(n, 1)` delivers exactly the same
statuses as `AnyPolicy(n)` on every trace; but `SomePolicy(n, n)` matches
`AllPolicy`'s success/failure decision on a complete trace of `n`
completions exactly when the trace is all successes or begins with a
failure — on any trace whose first outcome succeeds and which contains a
failure the two disagree (`All` delivers the failure, `Some(n, n)` a
success). -/
theorem c4_some_boundaries (h : PipelineHandler) (n : Nat) (sts : List XRootDStatus)
    (hlen : sts.length = n) (hn : n < wsize) :
    (Ctx.runAll ⟨some h, .SomeP ⟨n, 0, 1⟩⟩ sts = Ctx.runAll ⟨some h, .AnyP ⟨n⟩⟩ sts) ∧
    (((Ctx.runAll ⟨some h, .SomeP ⟨n, 0, n⟩⟩ sts).headD XRootDStatus.default).IsOK =
        ((Ctx.runAll ⟨some h, .AllP ⟨⟩⟩ sts).headD XRootDStatus.default).IsOK ↔
      ((∀ st ∈ sts, st.IsOK = true) ∨ ∃ f rest, sts = f :: rest ∧ f.IsOK = false)) := by
  constructor
  · exact runAll_SomeP_one_eq_AnyP sts n 0 (some h) (fun x _ => rfl)
  · have hAll := deliveredOK_AllP h sts
    have hSome := deliveredOK_SomeP_nn h n sts hlen hn
    have hSome2 : (((Ctx.runAll ⟨some h, .SomeP ⟨n, 0, n⟩⟩ sts).headD
        XRootDStatus.default).IsOK = true) ↔
        ¬(∃ f rest, sts = f :: rest ∧ f.IsOK = false) := by
      rw [hSome]
      constructor
      · rintro hforall ⟨f, rest, heq, hf⟩
        have := hforall f rest heq
        rw [this] at hf
        cases hf
      · intro hnex f rest heq
        cases hfv : f.IsOK with
        | true => rfl
        | false => exact absurd ⟨f, rest, heq, hfv⟩ hnex
    have hBQ : (∃ f rest, sts = f :: rest ∧ f.IsOK = false) →
        ¬(∀ st ∈ sts, st.IsOK = true) := by
      rintro ⟨f, rest, rfl, hf⟩ hall
      have := hall f (by simp)
      rw [this] at hf
      cases hf
    constructor
    · intro hab
      by_cases hq : ∃ f rest, sts = f :: rest ∧ f.IsOK = false
      · exact Or.inr hq
      · left
        have haT : ((Ctx.runAll ⟨some h, .SomeP ⟨n, 0, n⟩⟩ sts).headD
            XRootDStatus.default).IsOK = true := hSome2.mpr hq
        rw [← hab, haT] at hAll
        exact hAll.mp rfl
    · intro hor
      cases hor with
      | inl hp =>
        have hbT : ((Ctx.runAll ⟨some h, .AllP ⟨⟩⟩ sts).headD
            XRootDStatus.default).IsOK = true := hAll.mpr hp
        have haT : ((Ctx.runAll ⟨some h, .SomeP ⟨n, 0, n⟩⟩ sts).headD
            XRootDStatus.default).IsOK = true :=
          hSome2.mpr (fun hq => hBQ hq hp)
        rw [haT, hbT]
      | inr hq =>
        have hbF : ((Ctx.runAll ⟨some h, .AllP ⟨⟩⟩ sts).headD
            XRootDStatus.default).IsOK = false := by
          cases hbv : ((Ctx.runAll ⟨some h, .AllP ⟨⟩⟩ sts).headD
              XRootDStatus.default).IsOK with
          | false => rfl
          | true => exact absurd (hAll.mp hbv) (hBQ hq)
        have haF : ((Ctx.runAll ⟨some h, .SomeP ⟨n, 0, n⟩⟩ sts).headD
            XRootDStatus.default).IsOK = false := by
          cases hav : ((Ctx.runAll ⟨some h, .SomeP ⟨n, 0, n⟩⟩ sts).headD
              XRootDStatus.default).IsOK with
          | false => rfl
          | true => exact absurd hq (hSome2.mp hav)
        rw [haF, hbF]

/-- Witness for the amended C4 at `n = 2` on the trace `[success, failure]`
(where the decisions disagree, so the right-hand side of the equivalence is
false as well). -/
theorem c4_witness :
    ([(⟨stOK, ""⟩ : XRootDStatus), ⟨stError, "e"⟩].length = 2 ∧ 2 < wsize) ∧
    ((Ctx.runAll ⟨some ⟨0⟩, .SomeP ⟨2, 0, 1⟩⟩ [⟨stOK, ""⟩, ⟨stError, "e"⟩] =
        Ctx.runAll ⟨some ⟨0⟩, .AnyP ⟨2⟩⟩ [⟨stOK, ""⟩, ⟨stError, "e"⟩]) ∧
      (((Ctx.runAll ⟨some ⟨0⟩, .SomeP ⟨2, 0, 2⟩⟩ [⟨stOK, ""⟩, ⟨stError, "e"⟩]).headD
          XRootDStatus.default).IsOK =
          ((Ctx.runAll ⟨some ⟨0⟩, .AllP ⟨⟩⟩ [⟨stOK, ""⟩, ⟨stError, "e"⟩]).headD
            XRootDStatus.default).IsOK ↔
        ((∀ st ∈ [(⟨stOK, ""⟩ : XRootDStatus), ⟨stError, "e"⟩], st.IsOK = true) ∨
          ∃ f rest, [(⟨stOK, ""⟩ : XRootDStatus), ⟨stError, "e"⟩] = f :: rest ∧
            f.IsOK = false))) :=
  ⟨⟨by decide, by decide⟩,
    c4_some_boundaries ⟨0⟩ 2 [⟨stOK, ""⟩, ⟨stError, "e"⟩] (by decide) (by decide)⟩
